import Mathlib

/-!
# gcp-service-broker: VCAP_SERVICES credential resolver and versioned models

A shallow embedding of `db_service/vcap.go` and
`brokerapi/brokers/models/historical_db.go`.

* A Go call either returns or panics: `Run`. A `(T, error)` result is a pair
  whose second component is `none` for a `nil` error and the message otherwise.
* Go slices are modelled by `Slice`: the visible elements plus what the backing
  array still holds past the length, because `encoding/json` decodes an array
  over the elements that are already there.
* `json.Unmarshal` is modelled on the syntax tree of the text (`JSON`); a text
  that is not JSON is `Payload.invalid`.
* The order of a `range` over a map (`RangeOrder`) and `url.Parse` are inputs
  of the model. The configuration keys of the package are declared outside the
  two files and are taken as a parameter (`Props`).
* The `viper` store is a map from key to value on which `Set` is an update.
-/

set_option autoImplicit false

namespace DbService

/-! ## Go values -/

/-- A Go slice. `elems` is `s[0:len(s)]`; `spare` holds what the backing array
still contains just past `len(s)` from earlier writes (everything further on is
the zero value). A `nil` slice has both parts empty. -/
structure Slice (α : Type) where
  elems : List α
  spare : List α
deriving DecidableEq, Repr

/-- The `nil` slice. -/
def Slice.nil {α : Type} : Slice α := ⟨[], []⟩

/-- A `map[string]string`, as an association list with distinct keys. -/
abbrev StringMap := List (String × String)

/-- Map read `m[key]`: the zero value `""` when the key is missing. -/
def StringMap.index : StringMap → String → String
  | [], _ => ""
  | (k, v) :: rest, key => if k = key then v else StringMap.index rest key

/-- Map write `m[key] = v`. -/
def StringMap.assign : StringMap → String → String → StringMap
  | [], key, v => [(key, v)]
  | (k, x) :: rest, key, v =>
      if k = key then (k, v) :: rest else (k, x) :: StringMap.assign rest key v

/-- The struct `VcapService`. -/
structure VcapService where
  BindingName : String
  InstanceName : String
  Name : String
  Label : String
  Tags : Slice String
  Plan : String
  Credentials : StringMap
deriving DecidableEq, Repr

/-- The zero value `VcapService{}`. -/
def VcapService.zero : VcapService :=
  { BindingName := "", InstanceName := "", Name := "", Label := "",
    Tags := Slice.nil, Plan := "", Credentials := [] }

/-- A Go call: it returns a value or panics. -/
inductive Run (α : Type) where
  | ret (a : α)
  | fault (reason : String)
deriving DecidableEq, Repr

/-! ## `contains` and `findMySqlTag` -/

/-- The function `contains`: whether the string array `arr` contains `key`. -/
def contains : List String → String → Bool
  | [], _ => false
  | n :: rest, key => if key = n then true else contains rest key

/-- The `range` loop of `findMySqlTag` from position `i` on, over the loop
state `(index, count)`. -/
def findMySqlTagLoop (key : String) : List VcapService → Nat → Int × Nat → Int × Nat
  | [], _, st => st
  | vcapService :: rest, i, (index, count) =>
      if contains vcapService.Tags.elems key then
        findMySqlTagLoop key rest (i + 1) ((i : Int), count + 1)
      else
        findMySqlTagLoop key rest (i + 1) (index, count)

/-- The error text of `findMySqlTag`: the format string with `'mysql'`, the
count in decimal (`%d`) and `'mysql'` filled in. -/
def findMySqlTagMessage (count : Nat) : String :=
  "The variable VCAP_SERVICES must have one VCAP service with a tag of " ++ "'mysql'" ++
    ". There are currently " ++ Nat.repr count ++ " VCAP services with the tag " ++
    "'mysql'" ++ "."

/-- The function `findMySqlTag`: the index of the service tagged `key`, an error
when more or fewer than one is found. -/
def findMySqlTag (VcapServices : List VcapService) (key : String) : Int × Option String :=
  match findMySqlTagLoop key VcapServices 0 (-1, 0) with
  | (index, count) =>
      if count ≠ 1 then (-1, some (findMySqlTagMessage count)) else (index, none)

/-- The number of descriptors of `l` whose tag list has `key` among its
elements. -/
def tagged (key : String) (l : List VcapService) : Nat :=
  l.countP (fun v => decide (key ∈ v.Tags.elems))

/-! ## `encoding/json` on syntax trees -/

/-- A JSON text, identified with its syntax tree: object members are kept in
the order of the text, repeated keys included. -/
inductive JSON where
  | null
  | bool (b : Bool)
  | number (literal : String)
  | string (s : String)
  | array (items : List JSON)
  | object (members : List (String × JSON))

/-- The word `encoding/json` uses for a value in an `UnmarshalTypeError`. -/
def JSON.kind : JSON → String
  | .null => "null"
  | .bool _ => "bool"
  | .number _ => "number"
  | .string _ => "string"
  | .array _ => "array"
  | .object _ => "object"

/-- The text of an `UnmarshalTypeError` outside any struct field. -/
def unmarshalTypeError (value goType : String) : String :=
  "json: cannot unmarshal " ++ value ++ " into Go value of type " ++ goType

/-- The text of an `UnmarshalTypeError` under the struct field `field` of
`VcapService`. -/
def unmarshalFieldError (value field goType : String) : String :=
  "json: cannot unmarshal " ++ value ++ " into Go struct field VcapService." ++ field ++
    " of type " ++ goType

/-- What the environment variable holds: a text that is not valid JSON
(`json.Unmarshal` reports the syntax error `syntaxError`), or a JSON text. -/
inductive Payload where
  | invalid (syntaxError : String)
  | valid (doc : JSON)

/-- Decoding a JSON array into a slice element by element: item `i` is decoded
into what the backing array holds at `i` (`dec old item`), the zero value past
the furthest index written so far. -/
def decodeElems {α : Type} (dec : α → JSON → Except String α) (zero : α) :
    List α → List JSON → Except String (List α)
  | _, [] => .ok []
  | old, item :: items =>
      match dec (old.headD zero) item with
      | .error e => .error e
      | .ok x =>
          match decodeElems dec zero old.tail items with
          | .error e => .error e
          | .ok xs => .ok (x :: xs)

/-- Decoding a JSON array into the slice `s`: the length is reset and the items
are decoded over the backing array; an empty array gives a fresh empty slice. -/
def decodeArray {α : Type} (dec : α → JSON → Except String α) (zero : α)
    (s : Slice α) (items : List JSON) : Except String (Slice α) :=
  match items with
  | [] => .ok ⟨[], []⟩
  | _ :: _ =>
      match decodeElems dec zero (s.elems ++ s.spare) items with
      | .error e => .error e
      | .ok xs => .ok ⟨xs, (s.elems ++ s.spare).drop items.length⟩

/-- Decoding a JSON value into a Go `string` holding `old`, under the struct
field `field`: a string is stored, `null` has no effect, anything else is a
type error. -/
def decodeString (field : String) (old : String) : JSON → Except String String
  | .string s => .ok s
  | .null => .ok old
  | j => .error (unmarshalFieldError j.kind field "string")

/-- Decoding into the field `Tags []string`. -/
def decodeTags (old : Slice String) : JSON → Except String (Slice String)
  | .null => .ok Slice.nil
  | .array items => decodeArray (decodeString "tags") "" old items
  | j => .error (unmarshalFieldError j.kind "tags" "[]string")

/-- Decoding the members of a JSON object into a `map[string]string`: each value
is decoded into a fresh string and stored under its key. -/
def decodeMembers : StringMap → List (String × JSON) → Except String StringMap
  | m, [] => .ok m
  | m, (k, v) :: rest =>
      match decodeString "credentials" "" v with
      | .error e => .error e
      | .ok s => decodeMembers (m.assign k s) rest

/-- Decoding into the field `Credentials map[string]string`: an object is
decoded into the existing map, whose other entries stay. -/
def decodeCredentials (old : StringMap) : JSON → Except String StringMap
  | .null => .ok []
  | .object members => decodeMembers old members
  | j => .error (unmarshalFieldError j.kind "credentials" "map[string]string")

/-- Case folding of one character for the match of an object key with a field
name: ASCII letters to upper case, and the two other characters that fold to an
ASCII letter (U+017F to `S`, U+212A to `K`). -/
def foldRune (c : Char) : Char :=
  if 'a'.toNat ≤ c.toNat ∧ c.toNat ≤ 'z'.toNat then Char.ofNat (c.toNat - 32)
  else if c.toNat = 0x17F then 'S'
  else if c.toNat = 0x212A then 'K'
  else c

/-- Whether the object key `key` selects the field with JSON name `name`:
equal, or equal up to case. -/
def matchesField (key name : String) : Bool :=
  key.data.map foldRune == name.data.map foldRune

/-- Decoding one object member into the struct `old`: the field selected by the
key is decoded into; a key that selects no field is skipped. -/
def decodeField (old : VcapService) (key : String) (v : JSON) : Except String VcapService :=
  if matchesField key "binding_name" then
    (decodeString "binding_name" old.BindingName v).map (fun x => { old with BindingName := x })
  else if matchesField key "instance_name" then
    (decodeString "instance_name" old.InstanceName v).map (fun x => { old with InstanceName := x })
  else if matchesField key "name" then
    (decodeString "name" old.Name v).map (fun x => { old with Name := x })
  else if matchesField key "label" then
    (decodeString "label" old.Label v).map (fun x => { old with Label := x })
  else if matchesField key "tags" then
    (decodeTags old.Tags v).map (fun x => { old with Tags := x })
  else if matchesField key "plan" then
    (decodeString "plan" old.Plan v).map (fun x => { old with Plan := x })
  else if matchesField key "credentials" then
    (decodeCredentials old.Credentials v).map (fun x => { old with Credentials := x })
  else .ok old

/-- Decoding the members of a JSON object into the struct, in order. -/
def decodeFields : VcapService → List (String × JSON) → Except String VcapService
  | old, [] => .ok old
  | old, (k, v) :: rest =>
      match decodeField old k v with
      | .error e => .error e
      | .ok x => decodeFields x rest

/-- Decoding a JSON value into a `VcapService` holding `old`: the fields named
by an object are set and the others keep what they hold; `null` has no effect. -/
def decodeVcapService (old : VcapService) : JSON → Except String VcapService
  | .null => .ok old
  | .object members => decodeFields old members
  | j => .error (unmarshalTypeError j.kind "db_service.VcapService")

/-- The call `json.Unmarshal(raw, &vcapServices)` with `vcapServices` holding
`s`. -/
def unmarshalServices (raw : JSON) (s : Slice VcapService) :
    Except String (Slice VcapService) :=
  match raw with
  | .null => .ok Slice.nil
  | .array items => decodeArray decodeVcapService VcapService.zero s items
  | j => .error (unmarshalTypeError j.kind "[]db_service.VcapService")

/-- A `map[string]*json.RawMessage`: `none` is the `nil` pointer. -/
abbrev RawMap := List (String × Option JSON)

/-- Map write on a `RawMap`. -/
def RawMap.assign : RawMap → String → Option JSON → RawMap
  | [], key, v => [(key, v)]
  | (k, x) :: rest, key, v =>
      if k = key then (k, v) :: rest else (k, x) :: RawMap.assign rest key v

/-- The pointer stored for a member value: `nil` for `null`, else a pointer to
the raw text of the value. -/
def rawPointer : JSON → Option JSON
  | .null => none
  | j => some j

/-- Storing the members of the top-level object in the map, in order. -/
def storeMembers : RawMap → List (String × JSON) → RawMap
  | m, [] => m
  | m, (k, v) :: rest => storeMembers (m.assign k (rawPointer v)) rest

/-- The call `json.Unmarshal([]byte(vcapServicesEnv), &vcapServiceMap)` on a
`nil` map. -/
def unmarshalMap : Payload → Except String RawMap
  | .invalid syntaxError => .error syntaxError
  | .valid .null => .ok []
  | .valid (.object members) => .ok (storeMembers [] members)
  | .valid j => .error (unmarshalTypeError j.kind "map[string]*json.RawMessage")

/-! ## `parseVcapServices` -/

/-- The order in which a `range` over a map visits its entries: Go leaves it
unspecified, so it is an input of the model. -/
abbrev RangeOrder := RawMap → RawMap

/-- The `range` loop of `parseVcapServices` over the entries still to visit,
with `vcapServices` holding `s`: `*v` panics on a `nil` pointer. -/
def parseLoop : RawMap → Slice VcapService → Run (Except String (Slice VcapService))
  | [], s => .ret (.ok s)
  | (_, none) :: _, _ => .fault "invalid memory address or nil pointer dereference"
  | (_, some v) :: rest, s =>
      match unmarshalServices v s with
      | .error err => .ret (.error err)
      | .ok s' => parseLoop rest s'

/-- The function `parseVcapServices`. -/
def parseVcapServices (order : RangeOrder) (vcapServicesEnv : Payload) :
    Run (VcapService × Option String) :=
  match unmarshalMap vcapServicesEnv with
  | .error err => .ret (VcapService.zero, some ("Error unmarshaling VCAP_SERVICES: " ++ err))
  | .ok vcapServiceMap =>
      match parseLoop (order vcapServiceMap) Slice.nil with
      | .fault reason => .fault reason
      | .ret (.error err) =>
          .ret (VcapService.zero, some ("Error unmarshaling VCAP_SERVICES: " ++ err))
      | .ret (.ok vcapServices) =>
          match findMySqlTag vcapServices.elems "mysql" with
          | (_, some err) => .ret (VcapService.zero, some ("Error finding MySQL tag: " ++ err))
          | (index, none) =>
              if index < 0 then .fault "index out of range"
              else
                match vcapServices.elems.get? index.toNat with
                | none => .fault "index out of range"
                | some vcapService => .ret (vcapService, none)

/-! ## `useVcapServices` -/

/-- The part of a parsed `url.URL` that is read. -/
structure URL where
  Path : String
deriving DecidableEq, Repr

/-- The configuration keys and the database type constant of the package,
declared outside `vcap.go`. -/
structure Props where
  dbPathProp : String
  dbTypeProp : String
  dbHostProp : String
  dbUserProp : String
  dbPassProp : String
  dbNameProp : String
  caCertProp : String
  clientCertProp : String
  clientKeyProp : String
  DbTypeMysql : String

/-- The nine configuration keys are pairwise different. -/
def Props.distinct (P : Props) : Prop :=
  [P.dbPathProp, P.dbTypeProp, P.dbHostProp, P.dbUserProp, P.dbPassProp, P.dbNameProp,
    P.caCertProp, P.clientCertProp, P.clientKeyProp].Nodup

instance (P : Props) : Decidable P.distinct := by
  unfold Props.distinct
  infer_instance

/-- The configuration store: the value set for each key, the keys being
independent of one another. -/
abbrev Viper := String → Option String

/-- The call `viper.Set(key, value)`. -/
def Viper.Set (v : Viper) (key value : String) : Viper :=
  fun k => if k = key then some value else v k

/-- What `useVcapServices` acts on: the configuration store and the log. -/
structure World where
  viper : Viper
  log : List String

/-- The function `useVcapServices`. `env` is the result of
`os.LookupEnv("VCAP_SERVICES")` (`none` when the variable is not set) and
`urlParse` is `url.Parse`. -/
def useVcapServices (P : Props) (urlParse : String → Except String URL) (order : RangeOrder)
    (env : Option Payload) (w : World) : Run (World × Option String) :=
  match env with
  | none => .ret (w, none)
  | some vcapData =>
      match parseVcapServices order vcapData with
      | .fault reason => .fault reason
      | .ret (_, some err) => .ret (w, some ("Error parsing VCAP_SERVICES: " ++ err))
      | .ret (vcapService, none) =>
          match urlParse (vcapService.Credentials.index "uri") with
          | .error err =>
              .ret (w, some ("Error parsing VCAP_SERVICES credentials URI: " ++ err))
          | .ok u =>
              let log := w.log ++ ["Using MySQL database injected via VCAP_SERVICES environment variable"]
              let v := w.viper.Set P.dbPathProp u.Path
              let v := v.Set P.dbTypeProp P.DbTypeMysql
              let v := v.Set P.dbHostProp (vcapService.Credentials.index "host")
              let v := v.Set P.dbUserProp (vcapService.Credentials.index "Username")
              let v := v.Set P.dbPassProp (vcapService.Credentials.index "Password")
              let v := v.Set P.dbNameProp (vcapService.Credentials.index "database_name")
              if contains vcapService.Tags.elems "gcp" then
                let v := v.Set P.caCertProp (vcapService.Credentials.index "CaCert")
                let v := v.Set P.clientCertProp (vcapService.Credentials.index "ClientCert")
                let v := v.Set P.clientKeyProp (vcapService.Credentials.index "ClientKey")
                .ret (⟨v, log⟩, none)
              else
                .ret (⟨v, log⟩, none)

/-- The store after the six unconditional `viper.Set` calls. -/
def baseStore (P : Props) (v : Viper) (u : URL) (svc : VcapService) : Viper :=
  (((((v.Set P.dbPathProp u.Path).Set P.dbTypeProp P.DbTypeMysql).Set P.dbHostProp
    (svc.Credentials.index "host")).Set P.dbUserProp (svc.Credentials.index "Username")).Set
    P.dbPassProp (svc.Credentials.index "Password")).Set P.dbNameProp
    (svc.Credentials.index "database_name")

/-- The store after the three `viper.Set` calls under the `gcp` test. -/
def tlsStore (P : Props) (v : Viper) (svc : VcapService) : Viper :=
  ((v.Set P.caCertProp (svc.Credentials.index "CaCert")).Set P.clientCertProp
    (svc.Credentials.index "ClientCert")).Set P.clientKeyProp
    (svc.Credentials.index "ClientKey")

/-! ## The spec's reading of the accumulation step, and sample payloads -/

/-- Following the spec (§4.2, step 2): every raw array value is parsed into a
sequence of descriptors on its own, and all of them are accumulated into one
flat collection. -/
def specFlatCollection : RawMap → Except String (List VcapService)
  | [] => .ok []
  | (_, none) :: _ => .error "null in place of a descriptor array"
  | (_, some raw) :: rest =>
      match unmarshalServices raw Slice.nil with
      | .error e => .error e
      | .ok s =>
          match specFlatCollection rest with
          | .error e => .error e
          | .ok l => .ok (s.elems ++ l)

/-- The entries are visited in the order the map lists them. -/
def listedOrder : RangeOrder := fun m => m

/-- The entries are visited in the opposite order. -/
def reverseOrder : RangeOrder := fun m => m.reverse

/-- The JSON object of a descriptor with the members `name`, `tags` and
`credentials`. -/
def descriptorJSON (name : String) (tags : List String) (credentials : List (String × String)) :
    JSON :=
  .object [("name", .string name), ("tags", .array (tags.map JSON.string)),
    ("credentials", .object (credentials.map (fun kv => (kv.1, JSON.string kv.2))))]

/-- The descriptor that `descriptorJSON` decodes to on a zero value. -/
def descriptorOf (name : String) (tags : List String) (credentials : List (String × String)) :
    VcapService :=
  { VcapService.zero with Name := name, Tags := ⟨tags, []⟩, Credentials := credentials }

/-- The payload of the spec's example scenario. -/
def scenarioPayload : Payload :=
  .valid (.object [("user-provided", .array [descriptorJSON "db" ["mysql"]
    [("uri", "mysql://h/p"), ("host", "h"), ("Username", "u"), ("Password", "pw"),
      ("database_name", "d")]])])

/-- Two labels, one descriptor tagged `mysql` under each:
`{"a":[{"name":"db1","tags":["mysql"],"credentials":{"host":"h1"}}],
  "b":[{"name":"db2","tags":["mysql"],"credentials":{"host":"h2"}}]}`. -/
def twoLabelsPayload : Payload :=
  .valid (.object [("a", .array [descriptorJSON "db1" ["mysql"] [("host", "h1")]]),
    ("b", .array [descriptorJSON "db2" ["mysql"] [("host", "h2")]])])

/-- Two labels, the one descriptor tagged `mysql` under the first:
`{"p-mysql":[{"name":"db","tags":["mysql"],"credentials":{"uri":"mysql://h/p","host":"h"}}],
  "p-redis":[{"name":"cache","tags":["redis"],"credentials":{"host":"r"}}]}`. -/
def mysqlAndRedisPayload : Payload :=
  .valid (.object [("p-mysql", .array [descriptorJSON "db" ["mysql"]
      [("uri", "mysql://h/p"), ("host", "h")]]),
    ("p-redis", .array [descriptorJSON "cache" ["redis"] [("host", "r")]])])

/-- A label whose value is `null`: `{"user-provided": null}`. -/
def nullLabelPayload : Payload :=
  .valid (.object [("user-provided", .null)])

/-- The two descriptors of `twoLabelsPayload` under one label:
`{"a":[{"name":"db1",...},{"name":"db2",...}]}`. -/
def oneLabelPayload : Payload :=
  .valid (.object [("a", .array [descriptorJSON "db1" ["mysql"] [("host", "h1")],
    descriptorJSON "db2" ["mysql"] [("host", "h2")]])])

/-- A descriptor tagged `mysql` and `gcp` with the TLS credentials `CaCert` and
`ClientCert`, and no `ClientKey`. -/
def gcpPayload : Payload :=
  .valid (.object [("google-cloudsql-mysql", .array [descriptorJSON "db" ["mysql", "gcp"]
    [("uri", "mysql://h/p"), ("host", "h"), ("Username", "u"), ("Password", "pw"),
      ("database_name", "d"), ("CaCert", "ca"), ("ClientCert", "cc")]])])

/-- The descriptor of `gcpPayload`. -/
def gcpService : VcapService :=
  descriptorOf "db" ["mysql", "gcp"]
    [("uri", "mysql://h/p"), ("host", "h"), ("Username", "u"), ("Password", "pw"),
      ("database_name", "d"), ("CaCert", "ca"), ("ClientCert", "cc")]

/-- The descriptor of `scenarioPayload`. -/
def scenarioService : VcapService :=
  descriptorOf "db" ["mysql"]
    [("uri", "mysql://h/p"), ("host", "h"), ("Username", "u"), ("Password", "pw"),
      ("database_name", "d")]

/-- The payload of the scenario with the URI `:`, which `sampleUrlParse`
rejects. -/
def badUriPayload : Payload :=
  .valid (.object [("user-provided", .array [descriptorJSON "db" ["mysql"]
    [("uri", ":"), ("host", "h")]])])

/-- Following the spec (§4.2, step 3): the number of descriptors of the flat
collection whose tag set contains `mysql`. -/
def specTaggedCount (payload : Payload) : Except String Nat :=
  match unmarshalMap payload with
  | .error e => .error e
  | .ok m =>
      match specFlatCollection m with
      | .error e => .error e
      | .ok l => .ok (tagged "mysql" l)

/-- Sample configuration keys. -/
def sampleProps : Props :=
  { dbPathProp := "db.path", dbTypeProp := "db.type", dbHostProp := "db.host",
    dbUserProp := "db.user", dbPassProp := "db.password", dbNameProp := "db.name",
    caCertProp := "db.ca.cert", clientCertProp := "db.client.cert",
    clientKeyProp := "db.client.key", DbTypeMysql := "mysql" }

/-- A stand-in for `url.Parse` on the sample URIs: the path of `mysql://h/p` is
`/p`; the text `:` is rejected. -/
def sampleUrlParse (rawurl : String) : Except String URL :=
  if rawurl = "mysql://h/p" then .ok ⟨"/p"⟩
  else if rawurl = ":" then .error "missing protocol scheme"
  else .ok ⟨""⟩

/-- The empty store with an empty log. -/
def emptyWorld : World := ⟨fun _ => none, []⟩

end DbService

/-! ## Versioned models (`historical_db.go`) -/

namespace Models

/-- A `time.Time`, as an instant. -/
structure Time where
  nanoseconds : Int
deriving DecidableEq, Repr

/-- The embedded struct `gorm.Model`. -/
structure GormModel where
  ID : Nat
  CreatedAt : Time
  UpdatedAt : Time
  DeletedAt : Option Time
deriving DecidableEq, Repr

/-- The struct `ServiceBindingCredentialsV1`. -/
structure ServiceBindingCredentialsV1 where
  Model : GormModel
  OtherDetails : String
  ServiceId : String
  ServiceInstanceId : String
  BindingId : String
deriving DecidableEq, Repr

/-- The method `TableName` of `ServiceBindingCredentialsV1`. -/
def ServiceBindingCredentialsV1.TableName (_ : ServiceBindingCredentialsV1) : String :=
  "service_binding_credentials"

/-- The struct `ServiceInstanceDetailsV1`. -/
structure ServiceInstanceDetailsV1 where
  ID : String
  CreatedAt : Time
  UpdatedAt : Time
  DeletedAt : Option Time
  Name : String
  Location : String
  Url : String
  OtherDetails : String
  ServiceId : String
  PlanId : String
  SpaceGuid : String
  OrganizationGuid : String
deriving DecidableEq, Repr

/-- The method `TableName` of `ServiceInstanceDetailsV1`. -/
def ServiceInstanceDetailsV1.TableName (_ : ServiceInstanceDetailsV1) : String :=
  "service_instance_details"

/-- The struct `ProvisionRequestDetailsV1`. -/
structure ProvisionRequestDetailsV1 where
  Model : GormModel
  ServiceInstanceId : String
  RequestDetails : String
deriving DecidableEq, Repr

/-- The method `TableName` of `ProvisionRequestDetailsV1`. -/
def ProvisionRequestDetailsV1.TableName (_ : ProvisionRequestDetailsV1) : String :=
  "provision_request_details"

/-- The struct `MigrationV1`. -/
structure MigrationV1 where
  Model : GormModel
  MigrationId : Int
deriving DecidableEq, Repr

/-- The method `TableName` of `MigrationV1`. -/
def MigrationV1.TableName (_ : MigrationV1) : String :=
  "migrations"

/-- The struct `CloudOperationV1`. -/
structure CloudOperationV1 where
  Model : GormModel
  Name : String
  Status : String
  OperationType : String
  ErrorMessage : String
  InsertTime : String
  StartTime : String
  TargetId : String
  TargetLink : String
  ServiceId : String
  ServiceInstanceId : String
deriving DecidableEq, Repr

/-- The method `TableName` of `CloudOperationV1`. -/
def CloudOperationV1.TableName (_ : CloudOperationV1) : String :=
  "cloud_operations"

/-- The struct `PlanDetailsV1`. -/
structure PlanDetailsV1 where
  ID : String
  CreatedAt : Time
  UpdatedAt : Time
  DeletedAt : Option Time
  ServiceId : String
  Name : String
  Features : String
deriving DecidableEq, Repr

/-- The method `TableName` of `PlanDetailsV1`. -/
def PlanDetailsV1.TableName (_ : PlanDetailsV1) : String :=
  "plan_details"

end Models

namespace DbService

/-! ## Lemmas on the loop -/

theorem contains_iff (arr : List String) (key : String) :
    contains arr key = true ↔ key ∈ arr := by
  induction arr with
  | nil => simp [contains]
  | cons n rest ih =>
      by_cases h : key = n
      · simp [contains, h]
      · simp [contains, h, ih]

theorem loop_count (key : String) (l : List VcapService) (i : Nat) (st : Int × Nat) :
    (findMySqlTagLoop key l i st).2 = st.2 + tagged key l := by
  induction l generalizing i st with
  | nil => simp [findMySqlTagLoop, tagged]
  | cons v rest ih =>
      obtain ⟨index, count⟩ := st
      by_cases h : key ∈ v.Tags.elems
      · have hc : contains v.Tags.elems key = true := (contains_iff _ _).2 h
        simp only [findMySqlTagLoop, hc, if_true, ih]
        simp [tagged, List.countP_cons, h]
        omega
      · have hc : contains v.Tags.elems key = false := by
          cases hb : contains v.Tags.elems key with
          | false => rfl
          | true => exact absurd ((contains_iff _ _).1 hb) h
        simp only [findMySqlTagLoop, hc, Bool.false_eq_true, if_false, ih]
        simp [tagged, List.countP_cons, h]

theorem loop_index_none (key : String) (l : List VcapService) (i : Nat) (st : Int × Nat)
    (h0 : tagged key l = 0) : (findMySqlTagLoop key l i st).1 = st.1 := by
  induction l generalizing i st with
  | nil => simp [findMySqlTagLoop]
  | cons v rest ih =>
      obtain ⟨index, count⟩ := st
      have hv : key ∉ v.Tags.elems := by
        intro hin
        simp [tagged, List.countP_cons, hin] at h0
      have hrest : tagged key rest = 0 := by
        simpa [tagged, List.countP_cons, hv] using h0
      have hc : contains v.Tags.elems key = false := by
        cases hb : contains v.Tags.elems key with
        | false => rfl
        | true => exact absurd ((contains_iff _ _).1 hb) hv
      simp only [findMySqlTagLoop, hc, Bool.false_eq_true, if_false]
      simpa using ih (i + 1) (index, count) hrest

theorem tagged_zero_get (key : String) (l : List VcapService) (h0 : tagged key l = 0)
    (k : Nat) (v : VcapService) (hk : l.get? k = some v) : key ∉ v.Tags.elems := by
  intro hin
  have hmem : v ∈ l := List.get?_mem hk
  have hall := List.countP_eq_zero.1 h0 v hmem
  simp [hin] at hall

theorem loop_index_one (key : String) (l : List VcapService) (i : Nat) (st : Int × Nat)
    (h1 : tagged key l = 1) :
    ∃ j v, l.get? j = some v ∧ key ∈ v.Tags.elems ∧
      (findMySqlTagLoop key l i st).1 = ((i + j : Nat) : Int) ∧
      ∀ k w, l.get? k = some w → key ∈ w.Tags.elems → k = j := by
  induction l generalizing i st with
  | nil => simp [tagged] at h1
  | cons v rest ih =>
      obtain ⟨index, count⟩ := st
      by_cases h : key ∈ v.Tags.elems
      · have hc : contains v.Tags.elems key = true := (contains_iff _ _).2 h
        have hrest : tagged key rest = 0 := by
          have := h1
          simp [tagged, List.countP_cons, h] at this
          simpa [tagged] using this
        refine ⟨0, v, rfl, h, ?_, ?_⟩
        · simp only [findMySqlTagLoop, hc, if_true]
          rw [loop_index_none key rest (i + 1) _ hrest]
          simp
        · intro k w hk hw
          cases k with
          | zero => rfl
          | succ k' =>
              exact absurd hw (tagged_zero_get key rest hrest k' w (by simpa using hk))
      · have hc : contains v.Tags.elems key = false := by
          cases hb : contains v.Tags.elems key with
          | false => rfl
          | true => exact absurd ((contains_iff _ _).1 hb) h
        have hrest : tagged key rest = 1 := by
          simpa [tagged, List.countP_cons, h] using h1
        obtain ⟨j, w, hj, hw, hidx, huniq⟩ := ih (i + 1) (index, count) hrest
        refine ⟨j + 1, w, by simpa using hj, hw, ?_, ?_⟩
        · simp only [findMySqlTagLoop, hc, Bool.false_eq_true, if_false]
          rw [hidx]
          push_cast
          omega
        · intro k u hk hu
          cases k with
          | zero =>
              simp at hk
              subst hk
              exact absurd hu h
          | succ k' =>
              have := huniq k' u (by simpa using hk) hu
              omega

theorem findMySqlTag_eq (l : List VcapService) (key : String) :
    findMySqlTag l key =
      if tagged key l ≠ 1 then (-1, some (findMySqlTagMessage (tagged key l)))
      else ((findMySqlTagLoop key l 0 (-1, 0)).1, none) := by
  have hc := loop_count key l 0 (-1, 0)
  simp only [Nat.zero_add] at hc
  unfold findMySqlTag
  generalize findMySqlTagLoop key l 0 (-1, 0) = r at hc
  obtain ⟨index, count⟩ := r
  simp only at hc
  subst hc
  rfl

/-! ## `findMySqlTag`: when it fails, what it returns -/

/-- C1: `findMySqlTag` returns an error exactly when the number of descriptors
whose tag list contains `key` is not 1; zero matches and two or more matches
are both errors; and on error the returned index is -1. -/
theorem findMySqlTag_error_iff (VcapServices : List VcapService) (key : String) :
    ((findMySqlTag VcapServices key).2 ≠ none ↔ tagged key VcapServices ≠ 1) ∧
    (tagged key VcapServices = 0 → (findMySqlTag VcapServices key).2 ≠ none) ∧
    (2 ≤ tagged key VcapServices → (findMySqlTag VcapServices key).2 ≠ none) ∧
    ((findMySqlTag VcapServices key).2 ≠ none → (findMySqlTag VcapServices key).1 = -1) := by
  rw [findMySqlTag_eq]
  by_cases h : tagged key VcapServices = 1
  · simp [h]
  · simp [h]

/-- C2: when `findMySqlTag` returns without error, the index `i` is within the
list, the descriptor at `i` has `key` among its tags, and no descriptor at
another index has. -/
theorem findMySqlTag_ok_unique (VcapServices : List VcapService) (key : String) (i : Int)
    (h : findMySqlTag VcapServices key = (i, none)) :
    0 ≤ i ∧ i < (VcapServices.length : Int) ∧
    (∃ v, VcapServices.get? i.toNat = some v ∧ key ∈ v.Tags.elems) ∧
    (∀ k w, VcapServices.get? k = some w → key ∈ w.Tags.elems → (k : Int) = i) := by
  rw [findMySqlTag_eq] at h
  by_cases h1 : tagged key VcapServices = 1
  · simp only [h1, ne_eq, not_true_eq_false, if_false, Prod.mk.injEq, and_true] at h
    obtain ⟨j, v, hj, hv, hidx, huniq⟩ := loop_index_one key VcapServices 0 (-1, 0) h1
    rw [h] at hidx
    simp only [Nat.zero_add] at hidx
    have hlt : j < VcapServices.length := by
      rcases Nat.lt_or_ge j VcapServices.length with hl | hl
      · exact hl
      · rw [List.get?_eq_none.2 hl] at hj
        cases hj
    subst hidx
    refine ⟨by omega, by exact_mod_cast hlt, ⟨v, by simpa using hj, hv⟩, ?_⟩
    intro k w hk hw
    exact_mod_cast huniq k w hk hw
  · simp [h1] at h

/-- A list of two descriptors, the second tagged `mysql`: the index returned is
1, in range, and the only one whose descriptor is tagged. -/
theorem findMySqlTag_ok_unique_witness :
    findMySqlTag [descriptorOf "cache" ["redis"] [], descriptorOf "db" ["mysql", "gcp"] []]
        "mysql" = (1, none) ∧
    ((0 : Int) ≤ 1 ∧ (1 : Int) < (([descriptorOf "cache" ["redis"] [],
        descriptorOf "db" ["mysql", "gcp"] []] : List VcapService).length : Int) ∧
    (∃ v, [descriptorOf "cache" ["redis"] [], descriptorOf "db" ["mysql", "gcp"] []].get?
        (1 : Int).toNat = some v ∧ "mysql" ∈ v.Tags.elems) ∧
    (∀ k w, [descriptorOf "cache" ["redis"] [], descriptorOf "db" ["mysql", "gcp"] []].get? k
        = some w → "mysql" ∈ w.Tags.elems → (k : Int) = 1)) :=
  ⟨by decide, findMySqlTag_ok_unique _ "mysql" 1 (by decide)⟩

theorem findMySqlTagMessage_text (n : Nat) :
    findMySqlTagMessage n =
      "The variable VCAP_SERVICES must have one VCAP service with a tag of 'mysql'. There are currently "
        ++ Nat.repr n ++ " VCAP services with the tag 'mysql'." := by
  unfold findMySqlTagMessage
  simp only [String.append_assoc]
  rfl

/-- C4: when the number `n` of descriptors tagged `mysql` is not 1,
`findMySqlTag list "mysql"` returns the error whose message is exactly "The
variable VCAP_SERVICES must have one VCAP service with a tag of 'mysql'. There
are currently n VCAP services with the tag 'mysql'." with `n` in decimal; for a
list with no descriptor tagged `mysql` the count in it is 0. -/
theorem findMySqlTag_message (VcapServices : List VcapService)
    (h : tagged "mysql" VcapServices ≠ 1) :
    findMySqlTag VcapServices "mysql" =
      (-1, some ("The variable VCAP_SERVICES must have one VCAP service with a tag of 'mysql'. There are currently "
        ++ Nat.repr (tagged "mysql" VcapServices) ++ " VCAP services with the tag 'mysql'.")) ∧
    ((∀ v ∈ VcapServices, "mysql" ∉ v.Tags.elems) →
      findMySqlTag VcapServices "mysql" =
        (-1, some "The variable VCAP_SERVICES must have one VCAP service with a tag of 'mysql'. There are currently 0 VCAP services with the tag 'mysql'.")) := by
  have hmain : findMySqlTag VcapServices "mysql" =
      (-1, some (findMySqlTagMessage (tagged "mysql" VcapServices))) := by
    rw [findMySqlTag_eq]
    simp [h]
  refine ⟨by rw [hmain, findMySqlTagMessage_text], ?_⟩
  intro hnone
  have h0 : tagged "mysql" VcapServices = 0 := by
    unfold tagged
    rw [List.countP_eq_zero]
    intro v hv
    simpa using hnone v hv
  rw [hmain, h0]
  decide

/-- A list of three descriptors, two of them tagged `mysql`: the message
reports 2. -/
theorem findMySqlTag_message_witness :
    tagged "mysql" [descriptorOf "a" ["mysql"] [], descriptorOf "b" [] [],
      descriptorOf "c" ["x", "mysql"] []] ≠ 1 ∧
    findMySqlTag [descriptorOf "a" ["mysql"] [], descriptorOf "b" [] [],
      descriptorOf "c" ["x", "mysql"] []] "mysql" =
      (-1, some "The variable VCAP_SERVICES must have one VCAP service with a tag of 'mysql'. There are currently 2 VCAP services with the tag 'mysql'.") :=
  ⟨by decide,
    (findMySqlTag_message [descriptorOf "a" ["mysql"] [], descriptorOf "b" [] [],
      descriptorOf "c" ["x", "mysql"] []] (by decide)).1⟩

/-! ## `useVcapServices`: what it writes -/

theorem useVcapServices_error (P : Props) (urlParse : String → Except String URL)
    (order : RangeOrder) (env : Option Payload) (w w' : World) (err : String)
    (h : useVcapServices P urlParse order env w = .ret (w', some err)) : w' = w := by
  unfold useVcapServices at h
  cases env with
  | none => simp at h
  | some payload =>
      simp only at h
      split at h
      · simp at h
      · simp only [Run.ret.injEq, Prod.mk.injEq] at h
        exact h.1.symm
      · split at h
        · simp only [Run.ret.injEq, Prod.mk.injEq] at h
          exact h.1.symm
        · split at h <;> simp at h

theorem useVcapServices_ok (P : Props) (urlParse : String → Except String URL)
    (order : RangeOrder) (payload : Payload) (w w' : World)
    (h : useVcapServices P urlParse order (some payload) w = .ret (w', none)) :
    ∃ svc u, parseVcapServices order payload = .ret (svc, none) ∧
      urlParse (svc.Credentials.index "uri") = .ok u ∧
      w'.viper = (if contains svc.Tags.elems "gcp" then
        tlsStore P (baseStore P w.viper u svc) svc else baseStore P w.viper u svc) := by
  unfold useVcapServices at h
  simp only at h
  split at h
  · simp at h
  · simp at h
  · rename_i svc hparse
    split at h
    · simp at h
    · rename_i u hurl
      refine ⟨svc, u, hparse, hurl, ?_⟩
      split at h
      · rename_i hg
        simp only [Run.ret.injEq, Prod.mk.injEq, and_true] at h
        rw [← h]
        simp [hg, tlsStore, baseStore]
      · rename_i hg
        simp only [Run.ret.injEq, Prod.mk.injEq, and_true] at h
        rw [← h]
        simp [hg, baseStore]

theorem baseStore_at (P : Props) (hP : P.distinct) (v : Viper) (u : URL) (svc : VcapService) :
    baseStore P v u svc P.dbPathProp = some u.Path ∧
    baseStore P v u svc P.dbTypeProp = some P.DbTypeMysql ∧
    baseStore P v u svc P.dbHostProp = some (svc.Credentials.index "host") ∧
    baseStore P v u svc P.dbUserProp = some (svc.Credentials.index "Username") ∧
    baseStore P v u svc P.dbPassProp = some (svc.Credentials.index "Password") ∧
    baseStore P v u svc P.dbNameProp = some (svc.Credentials.index "database_name") ∧
    baseStore P v u svc P.caCertProp = v P.caCertProp ∧
    baseStore P v u svc P.clientCertProp = v P.clientCertProp ∧
    baseStore P v u svc P.clientKeyProp = v P.clientKeyProp := by
  simp only [Props.distinct, List.nodup_cons, List.mem_cons, List.mem_singleton,
    not_or, List.not_mem_nil, not_false_eq_true, and_true, List.nodup_nil] at hP
  simp only [baseStore, Viper.Set]
  refine ⟨?_, ?_, ?_, ?_, ?_, ?_, ?_, ?_, ?_⟩ <;> split_ifs <;> simp_all

theorem tlsStore_at (P : Props) (hP : P.distinct) (v : Viper) (svc : VcapService) :
    tlsStore P v svc P.caCertProp = some (svc.Credentials.index "CaCert") ∧
    tlsStore P v svc P.clientCertProp = some (svc.Credentials.index "ClientCert") ∧
    tlsStore P v svc P.clientKeyProp = some (svc.Credentials.index "ClientKey") ∧
    tlsStore P v svc P.dbPathProp = v P.dbPathProp ∧
    tlsStore P v svc P.dbTypeProp = v P.dbTypeProp ∧
    tlsStore P v svc P.dbHostProp = v P.dbHostProp ∧
    tlsStore P v svc P.dbUserProp = v P.dbUserProp ∧
    tlsStore P v svc P.dbPassProp = v P.dbPassProp ∧
    tlsStore P v svc P.dbNameProp = v P.dbNameProp := by
  simp only [Props.distinct, List.nodup_cons, List.mem_cons, List.mem_singleton,
    not_or, List.not_mem_nil, not_false_eq_true, and_true, List.nodup_nil] at hP
  simp only [tlsStore, Viper.Set]
  refine ⟨?_, ?_, ?_, ?_, ?_, ?_, ?_, ?_, ?_⟩ <;> split_ifs <;> simp_all

theorem index_missing (m : StringMap) (key : String)
    (h : ∀ kv ∈ m, kv.1 ≠ key) : m.index key = "" := by
  induction m with
  | nil => rfl
  | cons kv rest ih =>
      obtain ⟨k, v⟩ := kv
      have hk : k ≠ key := h (k, v) (by simp)
      simp only [StringMap.index, hk, if_false]
      exact ih (fun kv hkv => h kv (by simp [hkv]))

/-- C6: on a successful resolution the three TLS keys are written exactly when
the selected descriptor is tagged `gcp`: with the tag they hold the credentials
`CaCert`, `ClientCert` and `ClientKey` (the empty string for a credential that
is missing), without it they keep the values they had before the call. -/
theorem useVcapServices_tls (P : Props) (urlParse : String → Except String URL)
    (order : RangeOrder) (payload : Payload) (w w' : World) (hP : P.distinct)
    (h : useVcapServices P urlParse order (some payload) w = .ret (w', none)) :
    ∃ svc, parseVcapServices order payload = .ret (svc, none) ∧
      ("gcp" ∈ svc.Tags.elems →
        w'.viper P.caCertProp = some (svc.Credentials.index "CaCert") ∧
        w'.viper P.clientCertProp = some (svc.Credentials.index "ClientCert") ∧
        w'.viper P.clientKeyProp = some (svc.Credentials.index "ClientKey")) ∧
      ("gcp" ∉ svc.Tags.elems →
        w'.viper P.caCertProp = w.viper P.caCertProp ∧
        w'.viper P.clientCertProp = w.viper P.clientCertProp ∧
        w'.viper P.clientKeyProp = w.viper P.clientKeyProp) ∧
      (∀ field, (∀ kv ∈ svc.Credentials, kv.1 ≠ field) → svc.Credentials.index field = "") := by
  obtain ⟨svc, u, hparse, _, hw⟩ := useVcapServices_ok P urlParse order payload w w' h
  refine ⟨svc, hparse, ?_, ?_, fun field hf => index_missing _ _ hf⟩
  · intro hg
    have hc : contains svc.Tags.elems "gcp" = true := (contains_iff _ _).2 hg
    have ht := tlsStore_at P hP (baseStore P w.viper u svc) svc
    rw [hw]
    simp only [hc, if_true]
    exact ⟨ht.1, ht.2.1, ht.2.2.1⟩
  · intro hg
    have hc : contains svc.Tags.elems "gcp" = false := by
      cases hb : contains svc.Tags.elems "gcp" with
      | false => rfl
      | true => exact absurd ((contains_iff _ _).1 hb) hg
    have hb := baseStore_at P hP w.viper u svc
    rw [hw]
    simp only [hc, Bool.false_eq_true, if_false]
    exact ⟨hb.2.2.2.2.2.2.1, hb.2.2.2.2.2.2.2.1, hb.2.2.2.2.2.2.2.2⟩

/-- A payload whose descriptor is tagged `mysql` and `gcp`, resolved on the
empty store: the three TLS keys hold its credentials. -/
theorem useVcapServices_tls_witness :
    sampleProps.distinct ∧
    useVcapServices sampleProps sampleUrlParse listedOrder (some gcpPayload) emptyWorld =
      .ret (⟨tlsStore sampleProps (baseStore sampleProps emptyWorld.viper ⟨"/p"⟩ gcpService)
        gcpService,
        ["Using MySQL database injected via VCAP_SERVICES environment variable"]⟩, none) ∧
    ∃ svc, parseVcapServices listedOrder gcpPayload = .ret (svc, none) ∧
      ("gcp" ∈ svc.Tags.elems →
        (tlsStore sampleProps (baseStore sampleProps emptyWorld.viper ⟨"/p"⟩ gcpService)
          gcpService) sampleProps.caCertProp = some (svc.Credentials.index "CaCert") ∧
        (tlsStore sampleProps (baseStore sampleProps emptyWorld.viper ⟨"/p"⟩ gcpService)
          gcpService) sampleProps.clientCertProp = some (svc.Credentials.index "ClientCert") ∧
        (tlsStore sampleProps (baseStore sampleProps emptyWorld.viper ⟨"/p"⟩ gcpService)
          gcpService) sampleProps.clientKeyProp = some (svc.Credentials.index "ClientKey")) ∧
      ("gcp" ∉ svc.Tags.elems →
        (tlsStore sampleProps (baseStore sampleProps emptyWorld.viper ⟨"/p"⟩ gcpService)
          gcpService) sampleProps.caCertProp = emptyWorld.viper sampleProps.caCertProp ∧
        (tlsStore sampleProps (baseStore sampleProps emptyWorld.viper ⟨"/p"⟩ gcpService)
          gcpService) sampleProps.clientCertProp = emptyWorld.viper sampleProps.clientCertProp ∧
        (tlsStore sampleProps (baseStore sampleProps emptyWorld.viper ⟨"/p"⟩ gcpService)
          gcpService) sampleProps.clientKeyProp = emptyWorld.viper sampleProps.clientKeyProp) ∧
      (∀ field, (∀ kv ∈ svc.Credentials, kv.1 ≠ field) → svc.Credentials.index field = "") :=
  ⟨by decide, rfl,
    useVcapServices_tls sampleProps sampleUrlParse listedOrder gcpPayload emptyWorld _
      (by decide) rfl⟩

/-- C7: when the variable `VCAP_SERVICES` is absent, `useVcapServices` returns
no error and leaves the configuration store (and the log) as it was. -/
theorem useVcapServices_absent (P : Props) (urlParse : String → Except String URL)
    (order : RangeOrder) (w : World) :
    useVcapServices P urlParse order none w = .ret (w, none) := rfl

/-- C8: if `useVcapServices` returns an error, nothing of the configuration
store has changed; if it returns no error with `VCAP_SERVICES` present, then
path, type, host, user, password and database name have all been written, from
the descriptor that `parseVcapServices` selected and its parsed URI. -/
theorem useVcapServices_atomic (P : Props) (urlParse : String → Except String URL)
    (order : RangeOrder) (env : Option Payload) (w w' : World) :
    (∀ err, useVcapServices P urlParse order env w = .ret (w', some err) → w' = w) ∧
    (P.distinct → ∀ payload, env = some payload →
      useVcapServices P urlParse order env w = .ret (w', none) →
      ∃ svc u, parseVcapServices order payload = .ret (svc, none) ∧
        urlParse (svc.Credentials.index "uri") = .ok u ∧
        w'.viper P.dbPathProp = some u.Path ∧
        w'.viper P.dbTypeProp = some P.DbTypeMysql ∧
        w'.viper P.dbHostProp = some (svc.Credentials.index "host") ∧
        w'.viper P.dbUserProp = some (svc.Credentials.index "Username") ∧
        w'.viper P.dbPassProp = some (svc.Credentials.index "Password") ∧
        w'.viper P.dbNameProp = some (svc.Credentials.index "database_name")) := by
  refine ⟨fun err h => useVcapServices_error P urlParse order env w w' err h, ?_⟩
  intro hP payload henv h
  subst henv
  obtain ⟨svc, u, hparse, hurl, hw⟩ := useVcapServices_ok P urlParse order payload w w' h
  refine ⟨svc, u, hparse, hurl, ?_⟩
  have hb := baseStore_at P hP w.viper u svc
  have ht := tlsStore_at P hP (baseStore P w.viper u svc) svc
  rw [hw]
  split_ifs
  · rw [ht.2.2.2.1, ht.2.2.2.2.1, ht.2.2.2.2.2.1, ht.2.2.2.2.2.2.1, ht.2.2.2.2.2.2.2.1,
      ht.2.2.2.2.2.2.2.2]
    exact ⟨hb.1, hb.2.1, hb.2.2.1, hb.2.2.2.1, hb.2.2.2.2.1, hb.2.2.2.2.2.1⟩
  · exact ⟨hb.1, hb.2.1, hb.2.2.1, hb.2.2.2.1, hb.2.2.2.2.1, hb.2.2.2.2.2.1⟩

/-- Three failing environments (a selection failure, a payload that is no
object, a URI that does not parse), each leaving the store as it was, and the
scenario payload, where the six keys are written. -/
theorem useVcapServices_atomic_witness :
    (useVcapServices sampleProps sampleUrlParse listedOrder (some mysqlAndRedisPayload)
        emptyWorld = .ret (emptyWorld, some ("Error parsing VCAP_SERVICES: " ++
          ("Error finding MySQL tag: " ++ findMySqlTagMessage 0))) ∧
      useVcapServices sampleProps sampleUrlParse listedOrder (some (.valid (.array [])))
        emptyWorld = .ret (emptyWorld, some ("Error parsing VCAP_SERVICES: " ++
          ("Error unmarshaling VCAP_SERVICES: " ++
            unmarshalTypeError "array" "map[string]*json.RawMessage"))) ∧
      useVcapServices sampleProps sampleUrlParse listedOrder (some badUriPayload)
        emptyWorld = .ret (emptyWorld, some ("Error parsing VCAP_SERVICES credentials URI: " ++
          "missing protocol scheme"))) ∧
    ∃ svc u, parseVcapServices listedOrder scenarioPayload = .ret (svc, none) ∧
      sampleUrlParse (svc.Credentials.index "uri") = .ok u ∧
      baseStore sampleProps emptyWorld.viper ⟨"/p"⟩ scenarioService sampleProps.dbPathProp
        = some u.Path ∧
      baseStore sampleProps emptyWorld.viper ⟨"/p"⟩ scenarioService sampleProps.dbTypeProp
        = some sampleProps.DbTypeMysql ∧
      baseStore sampleProps emptyWorld.viper ⟨"/p"⟩ scenarioService sampleProps.dbHostProp
        = some (svc.Credentials.index "host") ∧
      baseStore sampleProps emptyWorld.viper ⟨"/p"⟩ scenarioService sampleProps.dbUserProp
        = some (svc.Credentials.index "Username") ∧
      baseStore sampleProps emptyWorld.viper ⟨"/p"⟩ scenarioService sampleProps.dbPassProp
        = some (svc.Credentials.index "Password") ∧
      baseStore sampleProps emptyWorld.viper ⟨"/p"⟩ scenarioService sampleProps.dbNameProp
        = some (svc.Credentials.index "database_name") :=
  ⟨⟨rfl, rfl, rfl⟩,
    (useVcapServices_atomic sampleProps sampleUrlParse listedOrder (some scenarioPayload)
      emptyWorld ⟨baseStore sampleProps emptyWorld.viper ⟨"/p"⟩ scenarioService,
        ["Using MySQL database injected via VCAP_SERVICES environment variable"]⟩).2
      (by decide) scenarioPayload rfl rfl⟩

/-! ## `parseVcapServices` over several labels -/

theorem parseVcapServices_lookup_in_range (order : RangeOrder) (payload : Payload) :
    parseVcapServices order payload ≠ .fault "index out of range" := by
  unfold parseVcapServices
  split
  · simp
  · split
    · rename_i reason hloop
      intro hr
      simp only [Run.fault.injEq] at hr
      subst hr
      revert hloop
      generalize order _ = m
      generalize (Slice.nil : Slice VcapService) = s
      induction m generalizing s with
      | nil => simp [parseLoop]
      | cons e rest ih =>
          obtain ⟨k, v⟩ := e
          cases v with
          | none => simp [parseLoop]
          | some raw =>
              simp only [parseLoop]
              split
              · simp
              · exact ih _
    · simp
    · rename_i vcapServices _
      split
      · simp
      · rename_i index hfind
        rw [findMySqlTag_eq] at hfind
        by_cases h1 : tagged "mysql" vcapServices.elems = 1
        · simp only [h1, ne_eq, not_true_eq_false, if_false, Prod.mk.injEq, and_true] at hfind
          obtain ⟨j, v, hj, _, hidx, _⟩ :=
            loop_index_one "mysql" vcapServices.elems 0 (-1, 0) h1
          rw [hfind] at hidx
          simp only [Nat.zero_add] at hidx
          subst hidx
          have hneg : ¬ ((j : Int) < 0) := by omega
          simp only [hneg, if_false, Int.toNat_ofNat, hj]
          simp
        · simp [h1] at hfind

theorem parseLoop_returns (m : RawMap) (s : Slice VcapService)
    (h : ∀ e ∈ m, e.2 ≠ none) : ∃ r, parseLoop m s = .ret r := by
  induction m generalizing s with
  | nil => exact ⟨_, rfl⟩
  | cons e rest ih =>
      obtain ⟨k, v⟩ := e
      cases v with
      | none => exact absurd rfl (h (k, none) (by simp))
      | some raw =>
          simp only [parseLoop]
          split
          · exact ⟨_, rfl⟩
          · exact ih _ (fun e he => h e (by simp [he]))

/-- Apart from the `nil` pointers, `parseVcapServices` is total: when no entry
of the map holds a `nil` pointer it returns a descriptor or an error. -/
theorem parseVcapServices_returns_without_nil (order : RangeOrder) (payload : Payload)
    (h : ∀ m, unmarshalMap payload = .ok m → ∀ e ∈ order m, e.2 ≠ none) :
    ∃ r, parseVcapServices order payload = .ret r := by
  have hrange := parseVcapServices_lookup_in_range order payload
  unfold parseVcapServices at hrange ⊢
  split
  · exact ⟨_, rfl⟩
  · rename_i m hm
    obtain ⟨r, hr⟩ := parseLoop_returns (order m) Slice.nil (h m hm)
    rw [hm] at hrange
    simp only [hr] at hrange ⊢
    cases r with
    | error e => exact ⟨_, rfl⟩
    | ok vcapServices =>
        simp only at hrange ⊢
        split
        · exact ⟨_, rfl⟩
        · rename_i index hfind
          rw [hfind] at hrange
          simp only at hrange
          split
          · rename_i hneg
            simp [hneg] at hrange
          · rename_i hneg
            simp only [hneg, if_false] at hrange
            split
            · rename_i hnone
              rw [List.get?_eq_getElem?] at hnone
              simp [hnone] at hrange
            · exact ⟨_, rfl⟩

theorem useVcapServices_of_parse (P : Props) (urlParse : String → Except String URL)
    (order : RangeOrder) (payload : Payload) (w : World) (svc : VcapService) (u : URL)
    (hparse : parseVcapServices order payload = .ret (svc, none))
    (hurl : urlParse (svc.Credentials.index "uri") = .ok u) :
    useVcapServices P urlParse order (some payload) w =
      .ret (⟨if contains svc.Tags.elems "gcp" then
          tlsStore P (baseStore P w.viper u svc) svc else baseStore P w.viper u svc,
        w.log ++ ["Using MySQL database injected via VCAP_SERVICES environment variable"]⟩,
        none) := by
  unfold useVcapServices
  simp only [hparse, hurl]
  split <;> rfl

/-- A payload with one label: when its array decodes to descriptors of which
exactly one is tagged `mysql`, and the URI of that one parses, `useVcapServices`
returns no error and the store holds the path of the URI, the mysql type, and
the host, user, password and database name of that descriptor. -/
theorem useVcapServices_single_label (P : Props) (urlParse : String → Except String URL)
    (order : RangeOrder) (payload : Payload) (w : World) (label : String) (raw : JSON)
    (s : Slice VcapService) (hP : P.distinct)
    (hmap : unmarshalMap payload = .ok [(label, some raw)])
    (horder : order [(label, some raw)] = [(label, some raw)])
    (hdec : unmarshalServices raw Slice.nil = .ok s)
    (hone : tagged "mysql" s.elems = 1) :
    ∃ svc, svc ∈ s.elems ∧ "mysql" ∈ svc.Tags.elems ∧
      parseVcapServices order payload = .ret (svc, none) ∧
      ∀ u, urlParse (svc.Credentials.index "uri") = .ok u →
        ∃ w', useVcapServices P urlParse order (some payload) w = .ret (w', none) ∧
          w'.viper P.dbPathProp = some u.Path ∧
          w'.viper P.dbTypeProp = some P.DbTypeMysql ∧
          w'.viper P.dbHostProp = some (svc.Credentials.index "host") ∧
          w'.viper P.dbUserProp = some (svc.Credentials.index "Username") ∧
          w'.viper P.dbPassProp = some (svc.Credentials.index "Password") ∧
          w'.viper P.dbNameProp = some (svc.Credentials.index "database_name") := by
  obtain ⟨j, v, hj, hv, hidx, _⟩ := loop_index_one "mysql" s.elems 0 (-1, 0) hone
  simp only [Nat.zero_add] at hidx
  have hfind : findMySqlTag s.elems "mysql" = ((j : Int), none) := by
    rw [findMySqlTag_eq, hidx]
    simp [hone]
  have hparse : parseVcapServices order payload = .ret (v, none) := by
    unfold parseVcapServices
    have hneg : ¬ ((j : Int) < 0) := by omega
    simp only [hmap, horder, parseLoop, hdec, hfind, hneg, if_false, Int.toNat_ofNat, hj]
  refine ⟨v, List.get?_mem hj, hv, hparse, ?_⟩
  intro u hurl
  refine ⟨_, useVcapServices_of_parse P urlParse order payload w v u hparse hurl, ?_⟩
  have hb := baseStore_at P hP w.viper u v
  have ht := tlsStore_at P hP (baseStore P w.viper u v) v
  simp only
  split_ifs
  · rw [ht.2.2.2.1, ht.2.2.2.2.1, ht.2.2.2.2.2.1, ht.2.2.2.2.2.2.1, ht.2.2.2.2.2.2.2.1,
      ht.2.2.2.2.2.2.2.2]
    exact ⟨hb.1, hb.2.1, hb.2.2.1, hb.2.2.2.1, hb.2.2.2.2.1, hb.2.2.2.2.2.1⟩
  · exact ⟨hb.1, hb.2.1, hb.2.2.1, hb.2.2.2.1, hb.2.2.2.2.1, hb.2.2.2.2.2.1⟩

/-- C3: the payload with two labels, one descriptor tagged `mysql` under each,
has two tagged descriptors in the flat collection of the spec, and
`parseVcapServices` returns one of them without error, the one of the label
visited last, in both visiting orders; with the same two descriptors under one
label it fails and reports the count 2. -/
theorem parseVcapServices_two_labels :
    specTaggedCount twoLabelsPayload = .ok 2 ∧
    parseVcapServices listedOrder twoLabelsPayload =
      .ret (descriptorOf "db2" ["mysql"] [("host", "h2")], none) ∧
    parseVcapServices reverseOrder twoLabelsPayload =
      .ret (descriptorOf "db1" ["mysql"] [("host", "h1")], none) ∧
    specTaggedCount oneLabelPayload = .ok 2 ∧
    parseVcapServices listedOrder oneLabelPayload =
      .ret (VcapService.zero, some "Error finding MySQL tag: The variable VCAP_SERVICES must have one VCAP service with a tag of 'mysql'. There are currently 2 VCAP services with the tag 'mysql'.") :=
  ⟨rfl, rfl, rfl, rfl, rfl⟩

/-- C5: the payload with the labels `p-mysql` and `p-redis` has exactly one
descriptor tagged `mysql` in the flat collection of the spec, and its URI is
`mysql://h/p`; when the label `p-redis` is visited last, `useVcapServices`
returns the selection error with the count 0 and writes nothing. -/
theorem useVcapServices_mysql_and_redis (P : Props) (urlParse : String → Except String URL)
    (w : World) :
    specTaggedCount mysqlAndRedisPayload = .ok 1 ∧
    useVcapServices P urlParse listedOrder (some mysqlAndRedisPayload) w =
      .ret (w, some "Error parsing VCAP_SERVICES: Error finding MySQL tag: The variable VCAP_SERVICES must have one VCAP service with a tag of 'mysql'. There are currently 0 VCAP services with the tag 'mysql'.") :=
  ⟨rfl, rfl⟩

/-- The example scenario of the spec: with a `url.Parse` that gives the path
`/p` for `mysql://h/p`, the payload resolves to path `/p`, host `h`, user `u`,
password `pw`, database `d` and the mysql type. -/
theorem useVcapServices_scenario (P : Props) (urlParse : String → Except String URL)
    (w : World) (hP : P.distinct) (hurl : urlParse "mysql://h/p" = .ok ⟨"/p"⟩) :
    ∃ w', useVcapServices P urlParse listedOrder (some scenarioPayload) w = .ret (w', none) ∧
      w'.viper P.dbPathProp = some "/p" ∧
      w'.viper P.dbTypeProp = some P.DbTypeMysql ∧
      w'.viper P.dbHostProp = some "h" ∧
      w'.viper P.dbUserProp = some "u" ∧
      w'.viper P.dbPassProp = some "pw" ∧
      w'.viper P.dbNameProp = some "d" := by
  have hparse : parseVcapServices listedOrder scenarioPayload = .ret (scenarioService, none) := by
    decide
  have huri : scenarioService.Credentials.index "uri" = "mysql://h/p" := by decide
  refine ⟨⟨baseStore P w.viper ⟨"/p"⟩ scenarioService,
    w.log ++ ["Using MySQL database injected via VCAP_SERVICES environment variable"]⟩, ?_, ?_⟩
  · unfold useVcapServices
    simp only [hparse, huri, hurl]
    rfl
  · have hb := baseStore_at P hP w.viper ⟨"/p"⟩ scenarioService
    exact ⟨hb.1, hb.2.1, hb.2.2.1, hb.2.2.2.1, hb.2.2.2.2.1, hb.2.2.2.2.2.1⟩

/-- The scenario of the spec with the sample keys and the sample `url.Parse`. -/
theorem useVcapServices_scenario_sample :
    ∃ w', useVcapServices sampleProps sampleUrlParse listedOrder (some scenarioPayload)
        emptyWorld = .ret (w', none) ∧
      w'.viper sampleProps.dbPathProp = some "/p" ∧
      w'.viper sampleProps.dbTypeProp = some sampleProps.DbTypeMysql ∧
      w'.viper sampleProps.dbHostProp = some "h" ∧
      w'.viper sampleProps.dbUserProp = some "u" ∧
      w'.viper sampleProps.dbPassProp = some "pw" ∧
      w'.viper sampleProps.dbNameProp = some "d" :=
  useVcapServices_scenario sampleProps sampleUrlParse emptyWorld (by decide) rfl

/-- The scenario payload is a payload with one label and one tagged
descriptor. -/
theorem useVcapServices_single_label_sample :
    ∃ svc, svc ∈ [scenarioService] ∧ "mysql" ∈ svc.Tags.elems ∧
      parseVcapServices listedOrder scenarioPayload = .ret (svc, none) ∧
      ∀ u, sampleUrlParse (svc.Credentials.index "uri") = .ok u →
        ∃ w', useVcapServices sampleProps sampleUrlParse listedOrder (some scenarioPayload)
            emptyWorld = .ret (w', none) ∧
          w'.viper sampleProps.dbPathProp = some u.Path ∧
          w'.viper sampleProps.dbTypeProp = some sampleProps.DbTypeMysql ∧
          w'.viper sampleProps.dbHostProp = some (svc.Credentials.index "host") ∧
          w'.viper sampleProps.dbUserProp = some (svc.Credentials.index "Username") ∧
          w'.viper sampleProps.dbPassProp = some (svc.Credentials.index "Password") ∧
          w'.viper sampleProps.dbNameProp = some (svc.Credentials.index "database_name") :=
  useVcapServices_single_label sampleProps sampleUrlParse listedOrder scenarioPayload emptyWorld
    "user-provided" (.array [descriptorJSON "db" ["mysql"]
      [("uri", "mysql://h/p"), ("host", "h"), ("Username", "u"), ("Password", "pw"),
        ("database_name", "d")]]) ⟨[scenarioService], []⟩ (by decide) rfl rfl rfl (by decide)

/-- The scenario payload has no `nil` pointer in its map, and
`parseVcapServices` returns on it. -/
theorem parseVcapServices_returns_sample :
    ∃ r, parseVcapServices listedOrder scenarioPayload = .ret r :=
  parseVcapServices_returns_without_nil listedOrder scenarioPayload (by
    intro m hm e he
    have hm' : m = [("user-provided", some (.array [descriptorJSON "db" ["mysql"]
        [("uri", "mysql://h/p"), ("host", "h"), ("Username", "u"), ("Password", "pw"),
          ("database_name", "d")]]))] := by
      have h0 : unmarshalMap scenarioPayload = .ok [("user-provided",
          some (.array [descriptorJSON "db" ["mysql"]
            [("uri", "mysql://h/p"), ("host", "h"), ("Username", "u"), ("Password", "pw"),
              ("database_name", "d")]]))] := rfl
      rw [h0] at hm
      exact (Except.ok.inj hm).symm
    subst hm'
    simp only [listedOrder, List.mem_singleton] at he
    subst he
    simp)

/-- C10: on the payload `{"user-provided": null}` the pointer stored for the
label is `nil` and `parseVcapServices` panics at its dereference: it returns
neither a descriptor nor an error. -/
theorem parseVcapServices_null_label :
    unmarshalMap nullLabelPayload = .ok [("user-provided", none)] ∧
    parseVcapServices listedOrder nullLabelPayload =
      .fault "invalid memory address or nil pointer dereference" ∧
    parseVcapServices reverseOrder nullLabelPayload =
      .fault "invalid memory address or nil pointer dereference" := by
  refine ⟨rfl, rfl, rfl⟩

end DbService

namespace Models

/-- C9: `TableName` is a constant function on each entity type, with the
literal table names; the result does not depend on the record. -/
theorem TableName_constant :
    (∀ r : ServiceBindingCredentialsV1, r.TableName = "service_binding_credentials") ∧
    (∀ r : ServiceInstanceDetailsV1, r.TableName = "service_instance_details") ∧
    (∀ r : ProvisionRequestDetailsV1, r.TableName = "provision_request_details") ∧
    (∀ r : MigrationV1, r.TableName = "migrations") ∧
    (∀ r : CloudOperationV1, r.TableName = "cloud_operations") ∧
    (∀ r : PlanDetailsV1, r.TableName = "plan_details") :=
  ⟨fun _ => rfl, fun _ => rfl, fun _ => rfl, fun _ => rfl, fun _ => rfl, fun _ => rfl⟩

end Models
